import Mathlib

/-!
Verification of the daveloper backend gateway (NestJS) against its
natural-language specification.

The embedding is a shallow one: each TypeScript service method that the
claims touch is translated to an executable Lean definition over explicit
state.  Time (`Date.now()`) is an explicit `Nat` argument in milliseconds;
Redis is an explicit association-list state; `async` methods that can
recurse unboundedly (the `getSession`/`deleteSession` pair) take a fuel
argument, with `none` meaning the call does not terminate within the
given fuel.
-/

namespace Daveloper

/-! ### Association-list helpers (model of Redis key/value tables) -/

def alistLookup {β : Type} (l : List (String × β)) (k : String) : Option β :=
  match l with
  | [] => none
  | (k', v) :: rest => if k' = k then some v else alistLookup rest k

def alistErase {β : Type} (l : List (String × β)) (k : String) : List (String × β) :=
  l.filter (fun p => p.1 ≠ k)

def alistInsert {β : Type} (l : List (String × β)) (k : String) (v : β) :
    List (String × β) :=
  (k, v) :: alistErase l k

theorem alistLookup_insert_self {β : Type} (l : List (String × β)) (k : String) (v : β) :
    alistLookup (alistInsert l k v) k = some v := by
  simp [alistInsert, alistLookup]

theorem alistLookup_insert_ne {β : Type} (l : List (String × β)) (k k' : String) (v : β)
    (h : k ≠ k') : alistLookup (alistInsert l k v) k' = alistLookup l k' := by
  simp only [alistInsert, alistLookup, if_neg h]
  induction l with
  | nil => simp [alistErase, alistLookup]
  | cons p rest ih =>
    by_cases hp : p.1 = k
    · simp [alistErase, alistLookup, hp, h, List.filter]
      have : alistErase rest k = List.filter (fun p => decide (p.1 ≠ k)) rest := rfl
      simpa [alistErase, List.filter, hp] using ih
    · cases p with
      | mk pk pv =>
        simp only [alistErase, List.filter] at *
        by_cases hk' : pk = k'
        · simp [alistLookup, hk', hp, alistErase] at *
          simp [List.filter, hp, alistLookup, hk'] at *
        · simp [alistLookup, hk', hp, alistErase, List.filter] at *
          simpa [alistErase] using ih

/-! ### Quota Service: `RateLimitService` (agent.service.ts, third section)

`RateLimitRule` is `{ windowMs, maxRequests }` from rate-limit.config.ts;
`RateLimitResult` mirrors the interface of the same name. -/

structure RateLimitRule where
  windowMs : Nat
  maxRequests : Nat
deriving DecidableEq, Repr

structure RateLimitResult where
  allowed : Bool
  totalRequests : Nat
  remainingRequests : Nat
  resetTime : Nat
  retryAfter : Option Nat
deriving DecidableEq, Repr

/-- Integer ceiling division, modelling JavaScript
(Math.ceil of x / b) for natural x and positive b. -/
def ceilDiv (a b : Nat) : Nat := (a + b - 1) / b

/-- (Math.floor of now / windowMs) * windowMs, as computed in
RateLimitService.checkRateLimit and recordRequest. -/
def windowStartOf (windowMs now : Nat) : Nat := now / windowMs * windowMs

/-- RateLimitService.checkRateLimit.  `currentCount` is the value the
service reads from Redis for the key of the current window
(getCurrentCount).  Nat subtraction `maxRequests - currentCount - 1`
agrees with the source's Math.max(0, maxRequests - currentCount - 1). -/
def checkRateLimit (rule : RateLimitRule) (now currentCount : Nat) : RateLimitResult :=
  let windowStart := windowStartOf rule.windowMs now
  let windowEnd := windowStart + rule.windowMs
  let resetTime := ceilDiv windowEnd 1000
  let allowed := decide (currentCount < rule.maxRequests)
  let remainingRequests := rule.maxRequests - currentCount - 1
  { allowed := allowed
    totalRequests := rule.maxRequests
    remainingRequests := if allowed then remainingRequests else 0
    resetTime := resetTime
    retryAfter := if allowed then none else some (ceilDiv (windowEnd - now) 1000) }

/-- The per-window counters kept in Redis, as a map from window start to
count.  RateLimitService.recordRequest increments the counter of the
window containing `now` (incrementCount; the key expiry it also sets is
physical-time behaviour not needed by the claims about admission). -/
def recordRequest (rule : RateLimitRule) (cnt : Nat → Nat) (now : Nat) : Nat → Nat :=
  fun ws => if ws = windowStartOf rule.windowMs now then cnt ws + 1 else cnt ws

/-- One request as the callers drive the service (gateway and middleware):
checkRateLimit first, and recordRequest only when the request was
admitted. -/
def requestStep (rule : RateLimitRule) (cnt : Nat → Nat) (now : Nat) :
    RateLimitResult × (Nat → Nat) :=
  let r := checkRateLimit rule now (cnt (windowStartOf rule.windowMs now))
  if r.allowed then (r, recordRequest rule cnt now) else (r, cnt)

/-- A sequence of requests at the given times, threading the counters. -/
def runRequests (rule : RateLimitRule) (cnt : Nat → Nat) :
    List Nat → List RateLimitResult × (Nat → Nat)
  | [] => ([], cnt)
  | t :: ts =>
    let p := requestStep rule cnt t
    let q := runRequests rule p.2 ts
    (p.1 :: q.1, q.2)

theorem recordRequest_apply (rule : RateLimitRule) (cnt : Nat → Nat) (now ws : Nat) :
    recordRequest rule cnt now ws
      = if ws = windowStartOf rule.windowMs now then cnt ws + 1 else cnt ws := rfl

theorem checkRateLimit_allowed (rule : RateLimitRule) (now n : Nat) :
    (checkRateLimit rule now n).allowed = decide (n < rule.maxRequests) := rfl

/-- Within one window, the sequence of admission decisions of a run is:
admitted exactly while the counter (initial count plus admitted
predecessors) is below the maximum. -/
theorem runRequests_allowed_map (rule : RateLimitRule) :
    ∀ (ts : List Nat) (cnt : Nat → Nat) (ws : Nat),
      (∀ t ∈ ts, windowStartOf rule.windowMs t = ws) →
      (runRequests rule cnt ts).1.map RateLimitResult.allowed
        = (List.range ts.length).map
            (fun i => decide (cnt ws + i < rule.maxRequests)) := by
  intro ts
  induction ts with
  | nil => intro cnt ws _; rfl
  | cons t ts ih =>
    intro cnt ws hws
    have hwt : windowStartOf rule.windowMs t = ws := hws t (by simp)
    have hws' : ∀ u ∈ ts, windowStartOf rule.windowMs u = ws := by
      intro u hu; exact hws u (by simp [hu])
    have hrange : List.range (ts.length + 1)
        = 0 :: (List.range ts.length).map Nat.succ := List.range_succ_eq_map ts.length
    by_cases hc : cnt ws < rule.maxRequests
    · have hstep : requestStep rule cnt t
          = (checkRateLimit rule t (cnt ws), recordRequest rule cnt t) := by
        simp [requestStep, hwt, checkRateLimit_allowed, hc]
      have hrec : recordRequest rule cnt t ws = cnt ws + 1 := by
        simp [recordRequest, hwt]
      have hih := ih (recordRequest rule cnt t) ws hws'
      rw [hrec] at hih
      simp only [runRequests, hstep, List.map_cons, List.length_cons, hrange,
        List.map_map]
      rw [List.cons_eq_cons]
      refine ⟨by simp [checkRateLimit_allowed, hc], ?_⟩
      rw [hih]
      apply List.map_congr_left
      intro i _
      simp only [Function.comp_apply, decide_eq_decide]
      omega
    · have hstep : requestStep rule cnt t
          = (checkRateLimit rule t (cnt ws), cnt) := by
        simp [requestStep, hwt, checkRateLimit_allowed, hc]
      have hih := ih cnt ws hws'
      simp only [runRequests, hstep, List.map_cons, List.length_cons, hrange,
        List.map_map]
      rw [List.cons_eq_cons]
      refine ⟨by simp [checkRateLimit_allowed, hc], ?_⟩
      rw [hih]
      apply List.map_congr_left
      intro i _
      simp only [Function.comp_apply, decide_eq_decide]
      omega

/-- A run leaves the counters of every other window untouched. -/
theorem runRequests_cnt_other (rule : RateLimitRule) :
    ∀ (ts : List Nat) (cnt : Nat → Nat) (ws' : Nat),
      (∀ t ∈ ts, windowStartOf rule.windowMs t ≠ ws') →
      (runRequests rule cnt ts).2 ws' = cnt ws' := by
  intro ts
  induction ts with
  | nil => intro cnt ws' _; rfl
  | cons t ts ih =>
    intro cnt ws' hws
    have hwt : windowStartOf rule.windowMs t ≠ ws' := hws t (by simp)
    have hws' : ∀ u ∈ ts, windowStartOf rule.windowMs u ≠ ws' := by
      intro u hu; exact hws u (by simp [hu])
    have hstep : (requestStep rule cnt t).2 ws' = cnt ws' := by
      unfold requestStep
      by_cases hc : (checkRateLimit rule t (cnt (windowStartOf rule.windowMs t))).allowed
      · simp only [hc, if_true, recordRequest]
        rw [if_neg (fun h => hwt h.symm)]
      · simp [hc]
    simp only [runRequests]
    rw [ih (requestStep rule cnt t).2 ws' hws', hstep]

theorem lt_windowStart_add (w now : Nat) (hw : 0 < w) :
    now < windowStartOf w now + w := by
  have h1 : now / w * w + now % w = now := Nat.div_add_mod' now w
  have h2 : now % w < w := Nat.mod_lt now hw
  unfold windowStartOf
  omega

theorem ceilDiv_thousand_pos (x : Nat) (hx : 1 ≤ x) : 1 ≤ ceilDiv x 1000 := by
  unfold ceilDiv
  rw [Nat.one_le_div_iff (by norm_num : (0:Nat) < 1000)]
  omega

/-- C1.  For every quota rule with window length w and maximum m:
checkRateLimit computes the aligned window start, admits iff the current
count is below the maximum, reports remaining = m - n - 1 when admitted
and 0 when rejected, reports resetTime = ceil((windowStart + w)/1000),
and on rejection a strictly positive retryAfter
= ceil((windowStart + w - now)/1000); consequently in a run started on a
fresh window the first m requests are admitted and later ones rejected,
and a request in a different window is admitted again. -/
theorem checkRateLimit_quota_admission
    (rule : RateLimitRule) (hw : 0 < rule.windowMs) (hm : 0 < rule.maxRequests)
    (now n : Nat) (ts : List Nat) (ws : Nat)
    (hts : ∀ t ∈ ts, windowStartOf rule.windowMs t = ws)
    (t' : Nat) (ht' : windowStartOf rule.windowMs t' ≠ ws) :
    windowStartOf rule.windowMs now = now / rule.windowMs * rule.windowMs
    ∧ ((checkRateLimit rule now n).allowed = true ↔ n < rule.maxRequests)
    ∧ (n < rule.maxRequests →
        (checkRateLimit rule now n).remainingRequests = rule.maxRequests - n - 1)
    ∧ (rule.maxRequests ≤ n → (checkRateLimit rule now n).remainingRequests = 0)
    ∧ (checkRateLimit rule now n).resetTime
        = ceilDiv (windowStartOf rule.windowMs now + rule.windowMs) 1000
    ∧ (rule.maxRequests ≤ n →
        (checkRateLimit rule now n).retryAfter
          = some (ceilDiv (windowStartOf rule.windowMs now + rule.windowMs - now) 1000)
        ∧ 1 ≤ ((checkRateLimit rule now n).retryAfter).getD 0)
    ∧ (runRequests rule (fun _ => 0) ts).1.map RateLimitResult.allowed
        = (List.range ts.length).map (fun i => decide (i < rule.maxRequests))
    ∧ (checkRateLimit rule t'
        ((runRequests rule (fun _ => 0) ts).2 (windowStartOf rule.windowMs t'))).allowed
        = true := by
  refine ⟨rfl, ?_, ?_, ?_, rfl, ?_, ?_, ?_⟩
  · rw [checkRateLimit_allowed]; exact decide_eq_true_iff
  · intro h; simp [checkRateLimit, h]
  · intro h; simp [checkRateLimit, Nat.not_lt.mpr h]
  · intro h
    have hy : ¬ n < rule.maxRequests := Nat.not_lt.mpr h
    have hlt := lt_windowStart_add rule.windowMs now hw
    have hra : (checkRateLimit rule now n).retryAfter
        = some (ceilDiv (windowStartOf rule.windowMs now + rule.windowMs - now) 1000) := by
      simp [checkRateLimit, hy]
    exact ⟨hra, by rw [hra]; exact ceilDiv_thousand_pos _ (by omega)⟩
  · rw [runRequests_allowed_map rule ts (fun _ => 0) ws hts]
    apply List.map_congr_left
    intro i _
    simp
  · have hz : (runRequests rule (fun _ => 0) ts).2 (windowStartOf rule.windowMs t') = 0 := by
      apply runRequests_cnt_other
      intro t ht
      rw [hts t ht]
      exact Ne.symm ht'
    rw [checkRateLimit_allowed, hz]
    exact decide_eq_true hm

/-- Witness for C1: rule with a 1000 ms window and max 2, three requests
at times 0, 1, 2 (all in the window starting at 0): admissions are
[true, true, false]. -/
theorem checkRateLimit_quota_admission_witness :
    (runRequests ⟨1000, 2⟩ (fun _ => 0) [0, 1, 2]).1.map RateLimitResult.allowed
      = (List.range ([0, 1, 2] : List Nat).length).map
          (fun i => decide (i < (⟨1000, 2⟩ : RateLimitRule).maxRequests)) :=
  (checkRateLimit_quota_admission ⟨1000, 2⟩ (by decide) (by decide) 1500 1 [0, 1, 2] 0
    (by decide) 1000 (by decide)).2.2.2.2.2.2.1

/-! ### Most-restrictive composition: `RateLimitMiddleware.use` (part_026)

The middleware evaluates the applicable rules, filters out the null
entries and reduces the remaining results.  In the source the reduce
callback's two reachable branches are textually identical — both return
the result with the fewer remaining requests, preferring the earlier one
on a tie — and the null guards are unreachable after filter(Boolean), so
the reduce is exactly a fold with that comparison, seeded with the first
element (JavaScript reduce with no initial value). -/

def mostRestrictive (results : List RateLimitResult) : Option RateLimitResult :=
  match results with
  | [] => none
  | r :: rs =>
    some (rs.foldl
      (fun prev current =>
        if prev.remainingRequests ≤ current.remainingRequests then prev else current) r)

/-- Modelled from the spec ("select the most restrictive result ... among
results of the same admission status, prefer the one with the fewest
remaining requests"), as the executable comparison the fold realises:
the first listed result attaining the minimal remaining count. -/
def firstMinByRemaining (r : RateLimitResult) (rs : List RateLimitResult) :
    RateLimitResult :=
  match rs with
  | [] => r
  | x :: xs =>
    let m := firstMinByRemaining x xs
    if r.remainingRequests ≤ m.remainingRequests then r else m

theorem firstMinByRemaining_rem_le (x : RateLimitResult) (xs : List RateLimitResult) :
    (firstMinByRemaining x xs).remainingRequests ≤ x.remainingRequests := by
  cases xs with
  | nil => simp [firstMinByRemaining]
  | cons y ys =>
    simp only [firstMinByRemaining]
    split
    · exact Nat.le_refl _
    · omega

theorem foldl_eq_firstMinByRemaining :
    ∀ (rs : List RateLimitResult) (r : RateLimitResult),
      rs.foldl
        (fun prev current =>
          if prev.remainingRequests ≤ current.remainingRequests then prev else current) r
        = firstMinByRemaining r rs := by
  intro rs
  induction rs with
  | nil => intro r; rfl
  | cons x xs ih =>
    intro r
    simp only [List.foldl_cons]
    rw [ih]
    by_cases hrx : r.remainingRequests ≤ x.remainingRequests
    · simp only [if_pos hrx]
      cases xs with
      | nil => simp [firstMinByRemaining, hrx]
      | cons y ys =>
        simp only [firstMinByRemaining]
        by_cases hxm : x.remainingRequests ≤ (firstMinByRemaining y ys).remainingRequests
        · simp only [if_pos hxm]
          have : r.remainingRequests ≤ (firstMinByRemaining y ys).remainingRequests := by
            omega
          simp [this, hrx]
        · simp only [if_neg hxm]
    · simp only [if_neg hrx]
      cases xs with
      | nil => simp [firstMinByRemaining, hrx]
      | cons y ys =>
        simp only [firstMinByRemaining]
        by_cases hxm : x.remainingRequests ≤ (firstMinByRemaining y ys).remainingRequests
        · simp only [if_pos hxm]
          have : ¬ r.remainingRequests ≤ x.remainingRequests := hrx
          simp [hrx]
        · simp only [if_neg hxm]
          have hle := firstMinByRemaining_rem_le y ys
          have : ¬ r.remainingRequests ≤ (firstMinByRemaining y ys).remainingRequests := by
            omega
          simp [this]

theorem firstMinByRemaining_mem :
    ∀ (rs : List RateLimitResult) (r : RateLimitResult),
      firstMinByRemaining r rs ∈ r :: rs := by
  intro rs
  induction rs with
  | nil => intro r; simp [firstMinByRemaining]
  | cons x xs ih =>
    intro r
    simp only [firstMinByRemaining]
    split
    · simp
    · have := ih x
      simp at this ⊢
      tauto

theorem firstMinByRemaining_min :
    ∀ (rs : List RateLimitResult) (r : RateLimitResult),
      ∀ y ∈ r :: rs,
        (firstMinByRemaining r rs).remainingRequests ≤ y.remainingRequests := by
  intro rs
  induction rs with
  | nil =>
    intro r y hy
    simp at hy
    simp [firstMinByRemaining, hy]
  | cons x xs ih =>
    intro r y hy
    simp only [firstMinByRemaining]
    have hmin := ih x
    simp only [List.mem_cons] at hy
    rcases hy with hy | hy | hy
    · subst hy; split <;> omega
    · have := hmin y (by simp [hy])
      subst hy; split <;> omega
    · have := hmin y (by simp [hy])
      split <;> omega

theorem firstMinByRemaining_first :
    ∀ (rs : List RateLimitResult) (r : RateLimitResult),
      ∃ l₁ l₂, r :: rs = l₁ ++ firstMinByRemaining r rs :: l₂
        ∧ ∀ y ∈ l₁,
            (firstMinByRemaining r rs).remainingRequests < y.remainingRequests := by
  intro rs
  induction rs with
  | nil =>
    intro r
    exact ⟨[], [], by simp [firstMinByRemaining], by simp⟩
  | cons x xs ih =>
    intro r
    obtain ⟨l₁, l₂, hsplit, hstrict⟩ := ih x
    simp only [firstMinByRemaining]
    by_cases hrm : r.remainingRequests ≤ (firstMinByRemaining x xs).remainingRequests
    · exact ⟨[], x :: xs, by simp [hrm], by simp⟩
    · refine ⟨r :: l₁, l₂, ?_, ?_⟩
      · simp only [if_neg hrm, List.cons_append, hsplit]
      · intro y hy
        simp only [if_neg hrm]
        rcases List.mem_cons.mp hy with hy | hy
        · subst hy; omega
        · exact hstrict y hy

/-- C2 counterexample.  A rejecting result is not always preferred over an
admitting one: with an admitting result that has 0 remaining requests
listed before a rejecting result (which also reports 0 remaining, as
checkRateLimit always does on rejection), the composite picked by the
middleware's reduce is the admitting one, so the composite admits even
though one individual result rejects. -/
theorem mostRestrictive_not_reject_preferring :
    mostRestrictive
        [{ allowed := true, totalRequests := 10, remainingRequests := 0,
           resetTime := 9, retryAfter := none },
         { allowed := false, totalRequests := 10, remainingRequests := 0,
           resetTime := 9, retryAfter := some 1 }]
      = some { allowed := true, totalRequests := 10, remainingRequests := 0,
               resetTime := 9, retryAfter := none }
    ∧ ({ allowed := false, totalRequests := 10, remainingRequests := 0,
         resetTime := 9, retryAfter := some 1 } : RateLimitResult).allowed = false := by
  exact ⟨rfl, rfl⟩

/-- C2 amended.  For every non-empty list of per-rule results, the
composite selected by RateLimitMiddleware.use is the first result (in
evaluation order) with the fewest remaining requests, regardless of
admission status: it is a member of the list, its remaining count is
minimal, and every earlier result has strictly more remaining requests.
(Because a rejecting result always reports 0 remaining, the spec's
5/0/3 example still rejects; but an admitting result with 0 remaining
listed earlier is preferred over a later rejecting one.) -/
theorem mostRestrictive_first_min_remaining (r : RateLimitResult)
    (rs : List RateLimitResult) :
    mostRestrictive (r :: rs) = some (firstMinByRemaining r rs)
    ∧ firstMinByRemaining r rs ∈ r :: rs
    ∧ (∀ y ∈ r :: rs,
        (firstMinByRemaining r rs).remainingRequests ≤ y.remainingRequests)
    ∧ ∃ l₁ l₂, r :: rs = l₁ ++ firstMinByRemaining r rs :: l₂
        ∧ ∀ y ∈ l₁,
            (firstMinByRemaining r rs).remainingRequests < y.remainingRequests := by
  refine ⟨?_, firstMinByRemaining_mem rs r, firstMinByRemaining_min rs r,
    firstMinByRemaining_first rs r⟩
  simp only [mostRestrictive]
  rw [foldl_eq_firstMinByRemaining]

/-- Witness for C2 (the spec's 5/0/3 example): with remaining counts
5, 0, 3 where the 0-remaining result is the rejecting one, the composite
is that rejecting result. -/
theorem mostRestrictive_first_min_remaining_witness :
    mostRestrictive
        [{ allowed := true, totalRequests := 10, remainingRequests := 5,
           resetTime := 9, retryAfter := none },
         { allowed := false, totalRequests := 10, remainingRequests := 0,
           resetTime := 9, retryAfter := some 1 },
         { allowed := true, totalRequests := 10, remainingRequests := 3,
           resetTime := 9, retryAfter := none }]
      = some { allowed := false, totalRequests := 10, remainingRequests := 0,
               resetTime := 9, retryAfter := some 1 } := by
  have h := (mostRestrictive_first_min_remaining
    { allowed := true, totalRequests := 10, remainingRequests := 5,
      resetTime := 9, retryAfter := none }
    [{ allowed := false, totalRequests := 10, remainingRequests := 0,
       resetTime := 9, retryAfter := some 1 },
     { allowed := true, totalRequests := 10, remainingRequests := 3,
       resetTime := 9, retryAfter := none }]).1
  rw [h]
  rfl

/-! ### Cache Service: `CacheService` (agent.service.ts, second section)

Cached values are JSON-serializable; the claims only need scalar values,
so the value universe is the scalar fragment of JSON.  `Json.serialize`
models JSON.stringify on that fragment (escaping quote and backslash).
gzip+base64 (`compress`/`decompress` in the source) is an opaque external
transform, modelled as a `CacheCodec` parameter.  The Redis round trip of
the entry record itself (JSON.stringify on set / JSON.parse on get) is
the identity on the entry and is modelled by storing the entry directly. -/

inductive Json where
  | null
  | bool (b : Bool)
  | num (n : Int)
  | str (s : String)
deriving DecidableEq, Repr

/-- JSON string escaping of one character (quote and backslash). -/
def escapeChar (c : Char) : List Char :=
  if c = '"' then ['\\', '"']
  else if c = '\\' then ['\\', '\\']
  else [c]

def escapeList : List Char → List Char
  | [] => []
  | c :: cs => escapeChar c ++ escapeList cs

/-- JSON.stringify on the scalar fragment. -/
def Json.serialize : Json → String
  | .null => "null"
  | .bool true => "true"
  | .bool false => "false"
  | .num n => toString n
  | .str s => String.mk ('"' :: (escapeList s.data ++ ['"']))

theorem escapeChar_length_pos (c : Char) : 1 ≤ (escapeChar c).length := by
  unfold escapeChar
  split
  · simp
  · split <;> simp

theorem escapeList_length_ge : ∀ l : List Char, l.length ≤ (escapeList l).length := by
  intro l
  induction l with
  | nil => simp [escapeList]
  | cons c cs ih =>
    have := escapeChar_length_pos c
    simp only [escapeList, List.length_append, List.length_cons]
    omega

/-- Serializing any JSON value and wrapping the text as a JSON string
never gives back the original value (for a string, quoting strictly
lengthens it). -/
theorem str_serialize_ne (v : Json) : Json.str (Json.serialize v) ≠ v := by
  cases v with
  | null => exact fun h => Json.noConfusion h
  | bool b => exact fun h => Json.noConfusion h
  | num n => exact fun h => Json.noConfusion h
  | str s =>
    intro h
    injection h with h
    have hd : ('"' :: (escapeList s.data ++ ['"'])) = s.data := congrArg String.data h
    have hlen := congrArg List.length hd
    have := escapeList_length_ge s.data
    simp only [List.length_cons, List.length_append] at hlen
    omega

/-- The reversible compression transform (gzip + base64 in the source),
kept abstract. -/
structure CacheCodec where
  compress : String → String
  decompress : String → String

/-- The performance-relevant slice of cache.config.ts
(defaultTtl, performance.enableCompression, performance.compressionThreshold,
performance.maxValueSize). -/
structure CacheCfg where
  defaultTtl : Nat
  enableCompression : Bool
  compressionThreshold : Nat
  maxValueSize : Nat
deriving Repr

/-- The CacheEntry interface of cache.service. -/
structure CacheEntry where
  value : Json
  ttl : Nat
  compressed : Bool
  size : Nat
  createdAt : Nat
  lastAccessed : Nat
deriving DecidableEq, Repr

abbrev CacheStore := List (String × CacheEntry)

/-- Buffer.byteLength(data, utf8), the source's getSize. -/
def getSize (s : String) : Nat := s.utf8ByteSize

/-- Keys are stored under the CACHE_VERSION prefix (CACHE_VERSION = 1.0). -/
def cacheVersionKey (key : String) : String := "1.0:" ++ key

/-- JavaScript `ttl || this.config.defaultTtl` (0 is falsy). -/
def finalTtlOf (cfg : CacheCfg) (ttl : Option Nat) : Nat :=
  match ttl with
  | some t => if t = 0 then cfg.defaultTtl else t
  | none => cfg.defaultTtl

namespace CacheService

/-- CacheService.set: serialize, reject when the serialized size exceeds
maxValueSize, then compress when compression is enabled and the
serialized size exceeds the threshold, and store the entry under the
versioned key with the entry's TTL. -/
def set (cfg : CacheCfg) (codec : CacheCodec) (store : CacheStore)
    (key : String) (value : Json) (ttl : Option Nat) (now : Nat) :
    Except String CacheStore :=
  let finalTtl := finalTtlOf cfg ttl
  let size := getSize (Json.serialize value)
  if cfg.maxValueSize < size then
    Except.error ("Value too large: " ++ toString size ++ " > "
      ++ toString cfg.maxValueSize)
  else
    let doCompress := cfg.enableCompression
      && decide (cfg.compressionThreshold < size)
    let entry : CacheEntry :=
      if doCompress then
        { value := Json.str (codec.compress (Json.serialize value)),
          ttl := finalTtl, compressed := true,
          size := getSize (codec.compress (Json.serialize value)),
          createdAt := now, lastAccessed := now }
      else
        { value := value, ttl := finalTtl, compressed := false,
          size := size, createdAt := now, lastAccessed := now }
    Except.ok (alistInsert store (cacheVersionKey key) entry)

/-- The logical-expiry check of CacheService (now - createdAt > ttl * 1000). -/
def isExpired (entry : CacheEntry) (now : Nat) : Bool :=
  decide (entry.ttl * 1000 < now - entry.createdAt)

/-- CacheService.get: read the entry under the versioned key; treat a
logically expired entry as a miss (deleting it); otherwise refresh
lastAccessed, rewrite the entry, and if the entry is marked compressed
and its stored value is a string, return the decompressed string —
without re-parsing it as JSON. -/
def get (codec : CacheCodec) (store : CacheStore) (key : String) (now : Nat) :
    Option Json × CacheStore :=
  match alistLookup store (cacheVersionKey key) with
  | none => (none, store)
  | some entry =>
    if isExpired entry now then
      (none, alistErase store (cacheVersionKey key))
    else
      let entry2 := { entry with lastAccessed := now }
      let store2 := alistInsert store (cacheVersionKey key) entry2
      let v :=
        match entry2.compressed, entry2.value with
        | true, Json.str s => Json.str (codec.decompress s)
        | true, w => w
        | false, w => w
      (some v, store2)

end CacheService

/-- C3 (the code contradicts the round-trip contract for compressed
values).  When compression applies, set stores the compressed serialized
text, but get returns the decompressed text as a string value without
re-parsing it: the caller receives the JSON serialization of V, never a
value equal to V. -/
theorem cacheGet_compressed_returns_serialized
    (cfg : CacheCfg) (codec : CacheCodec) (store : CacheStore)
    (key : String) (v : Json) (ttl : Option Nat) (now : Nat)
    (hcomp : cfg.enableCompression = true)
    (hthr : cfg.compressionThreshold < getSize (Json.serialize v))
    (hmax : getSize (Json.serialize v) ≤ cfg.maxValueSize)
    (hrt : codec.decompress (codec.compress (Json.serialize v)) = Json.serialize v) :
    (CacheService.set cfg codec store key v ttl now).map
        (fun st => (CacheService.get codec st key now).1)
      = Except.ok (some (Json.str (Json.serialize v)))
    ∧ Json.str (Json.serialize v) ≠ v := by
  refine ⟨?_, str_serialize_ne v⟩
  have hns : ¬ cfg.maxValueSize < getSize (Json.serialize v) := Nat.not_lt.mpr hmax
  simp only [CacheService.set, hns, if_false, hcomp, hthr, decide_true_eq_true,
    Bool.true_and, if_true, Except.map, CacheService.get, alistLookup_insert_self,
    CacheService.isExpired]
  simp [hrt]

/-- A concrete cache configuration: compression enabled above 4 bytes,
10^6-byte hard maximum. -/
def smallThresholdCfg : CacheCfg := ⟨300, true, 4, 1000000⟩

/-- String reversal as a concrete stand-in for the reversible
compression transform. -/
def revCodec : CacheCodec :=
  ⟨fun s => String.mk s.data.reverse, fun s => String.mk s.data.reverse⟩

/-- Witness for C3: a concrete 7-byte string value above the 4-byte
compression threshold; get after set returns the serialized text (with
quotes), not the original value. -/
theorem cacheGet_compressed_returns_serialized_witness :
    (CacheService.set smallThresholdCfg revCodec [] "k" (Json.str "hello") none 0).map
        (fun st => (CacheService.get revCodec st "k" 0).1)
      = Except.ok (some (Json.str (Json.serialize (Json.str "hello"))))
    ∧ Json.str (Json.serialize (Json.str "hello")) ≠ Json.str "hello" :=
  cacheGet_compressed_returns_serialized smallThresholdCfg revCodec
    [] "k" (Json.str "hello") none 0
    rfl (by decide) (by decide) (by decide)

/-- A codec whose compression shrinks every input to one byte; C6 needs
a value whose compressed size is below the maximum. -/
def shrinkCodec : CacheCodec := ⟨fun _ => "z", fun _ => ""⟩

/-- C6 counterexample.  The size check runs on the serialized value
BEFORE compression: a 14-byte serialized value over a 10-byte maximum is
rejected although its compressed size (1 byte) is within the maximum, so
"fails iff the size after any compression step exceeds the maximum" is
false, and a value whose serialized size exceeds the maximum but whose
compressed size does not is NOT accepted. -/
theorem cacheSet_rejects_compressible_value :
    CacheService.set ⟨300, true, 2, 10⟩ shrinkCodec [] "k"
        (Json.str "aaaaaaaaaaaa") none 0
      = Except.error ("Value too large: " ++ toString (14 : Nat) ++ " > "
          ++ toString (10 : Nat))
    ∧ getSize (shrinkCodec.compress (Json.serialize (Json.str "aaaaaaaaaaaa"))) ≤ 10 := by
  exact ⟨rfl, by decide⟩

/-- C6 amended.  set fails if and only if the serialized size BEFORE any
compression exceeds maxValueSize (with that exact error and nothing
stored); when it is within the maximum, the stored entry holds the value
in full — either unchanged or as the complete compression of its
serialization — so nothing is silently truncated, but the compressed
size is never checked against the maximum. -/
theorem cacheSet_error_iff_serialized_size
    (cfg : CacheCfg) (codec : CacheCodec) (store : CacheStore)
    (key : String) (value : Json) (ttl : Option Nat) (now : Nat) :
    ((∃ e, CacheService.set cfg codec store key value ttl now = Except.error e)
      ↔ cfg.maxValueSize < getSize (Json.serialize value))
    ∧ (cfg.maxValueSize < getSize (Json.serialize value) →
        CacheService.set cfg codec store key value ttl now
          = Except.error ("Value too large: "
              ++ toString (getSize (Json.serialize value)) ++ " > "
              ++ toString cfg.maxValueSize))
    ∧ (getSize (Json.serialize value) ≤ cfg.maxValueSize →
        CacheService.set cfg codec store key value ttl now
          = Except.ok (alistInsert store (cacheVersionKey key)
              (if cfg.enableCompression
                  && decide (cfg.compressionThreshold < getSize (Json.serialize value))
                then { value := Json.str (codec.compress (Json.serialize value)),
                       ttl := finalTtlOf cfg ttl, compressed := true,
                       size := getSize (codec.compress (Json.serialize value)),
                       createdAt := now, lastAccessed := now }
                else { value := value, ttl := finalTtlOf cfg ttl, compressed := false,
                       size := getSize (Json.serialize value),
                       createdAt := now, lastAccessed := now }))) := by
  by_cases h : cfg.maxValueSize < getSize (Json.serialize value)
  · have herr : CacheService.set cfg codec store key value ttl now
        = Except.error ("Value too large: "
            ++ toString (getSize (Json.serialize value)) ++ " > "
            ++ toString cfg.maxValueSize) := by
      simp [CacheService.set, h]
    exact ⟨⟨fun _ => h, fun _ => ⟨_, herr⟩⟩, fun _ => herr, fun hle => absurd h (by omega)⟩
  · refine ⟨⟨fun ⟨e, he⟩ => ?_, fun hlt => absurd hlt h⟩, fun hlt => absurd hlt h, fun _ => ?_⟩
    · simp [CacheService.set, h] at he
    · simp [CacheService.set, h]

/-- Witness for C6 amended: a 7-byte serialized value over a 5-byte
maximum is rejected with the exact error message. -/
theorem cacheSet_error_iff_serialized_size_witness :
    CacheService.set ⟨300, true, 2, 5⟩ shrinkCodec [] "k" (Json.str "hello") none 0
      = Except.error ("Value too large: "
          ++ toString (getSize (Json.serialize (Json.str "hello")))
          ++ " > " ++ toString (5 : Nat)) :=
  (cacheSet_error_iff_serialized_size ⟨300, true, 2, 5⟩ shrinkCodec [] "k"
    (Json.str "hello") none 0).2.1 (by decide)

/-! ### Coordination Store adapter: `RedisService` (redis.service.ts)

The adapter state: `available = false` covers both failure modes of the
source (the client handle missing, guarded by `if (!this.client)`, and a
connectivity error thrown by the ioredis call and caught by the
surrounding try/catch) — in both modes each guarded operation logs and
returns its neutral default.  `unsubscribe` is the one operation with
neither guard nor swallowed catch: its catch block rethrows.  `outbox`
records successfully published (channel, payload) pairs; `subs` the
channels subscribed to. -/

structure RedisState where
  available : Bool
  kv : List (String × String × Option Nat)
  sets : List (String × List String)
  subs : List String
  outbox : List (String × String)
deriving DecidableEq, Repr

namespace RedisService

def get (st : RedisState) (key : String) : Option String × RedisState :=
  if !st.available then (none, st)
  else
    match alistLookup st.kv key with
    | none => (none, st)
    | some (v, _) => (some v, st)

/-- set with an optional ttl: `setex` when a ttl is passed, plain `SET`
otherwise — and Redis plain SET discards any existing expiry, so the
stored ttl is exactly the argument. -/
def set (st : RedisState) (key value : String) (ttl : Option Nat) : RedisState :=
  if !st.available then st
  else { st with kv := alistInsert st.kv key (value, ttl) }

def incr (st : RedisState) (key : String) : Nat × RedisState :=
  if !st.available then (0, st)
  else
    let old := match alistLookup st.kv key with
      | some (v, _) => (v.toNat?).getD 0
      | none => 0
    let ttl := match alistLookup st.kv key with
      | some (_, t) => t
      | none => none
    (old + 1, { st with kv := alistInsert st.kv key (toString (old + 1), ttl) })

def expire (st : RedisState) (key : String) (ttl : Nat) : Bool × RedisState :=
  if !st.available then (false, st)
  else
    match alistLookup st.kv key with
    | none => (false, st)
    | some (v, _) => (true, { st with kv := alistInsert st.kv key (v, some ttl) })

def del (st : RedisState) (keys : List String) : Nat × RedisState :=
  if !st.available then (0, st)
  else
    ((keys.filter (fun k => (alistLookup st.kv k).isSome)).length,
     { st with kv := keys.foldl (fun acc k => alistErase acc k) st.kv })

/-- A glob pattern restricted to the forms the services use:
an exact key or a prefix followed by a trailing star. -/
def patternMatches (pattern key : String) : Bool :=
  if pattern.endsWith "*" then (pattern.dropRight 1).isPrefixOf key
  else pattern == key

def keys (st : RedisState) (pattern : String) : List String × RedisState :=
  if !st.available then ([], st)
  else ((st.kv.map (fun p => p.1)).filter (patternMatches pattern), st)

def sadd (st : RedisState) (key member : String) : Nat × RedisState :=
  if !st.available then (0, st)
  else
    match alistLookup st.sets key with
    | none => (1, { st with sets := alistInsert st.sets key [member] })
    | some ms =>
      if member ∈ ms then (0, st)
      else (1, { st with sets := alistInsert st.sets key (ms ++ [member]) })

def srem (st : RedisState) (key member : String) : Nat × RedisState :=
  if !st.available then (0, st)
  else
    match alistLookup st.sets key with
    | none => (0, st)
    | some ms =>
      (if member ∈ ms then 1 else 0,
       { st with sets := alistInsert st.sets key (ms.filter (fun m => m ≠ member)) })

def smembers (st : RedisState) (key : String) : List String × RedisState :=
  if !st.available then ([], st)
  else ((alistLookup st.sets key).getD [], st)

def setWithExpiry (st : RedisState) (key value : String) (ttl : Nat) : RedisState :=
  if !st.available then st
  else { st with kv := alistInsert st.kv key (value, some ttl) }

def publish (st : RedisState) (channel payload : String) : RedisState :=
  if !st.available then st
  else { st with outbox := st.outbox ++ [(channel, payload)] }

def subscribe (st : RedisState) (channel : String) : RedisState :=
  if !st.available then st
  else { st with subs := if channel ∈ st.subs then st.subs else st.subs ++ [channel] }

/-- unsubscribe has no availability guard and its catch rethrows: a
failing backend produces a propagated exception. -/
def unsubscribe (st : RedisState) (channel : String) : Except String RedisState :=
  if !st.available then Except.error ("Failed to unsubscribe from " ++ channel)
  else Except.ok { st with subs := st.subs.filter (fun c => c ≠ channel) }

end RedisService

/-- C9 counterexample.  With the store unavailable, unsubscribe
propagates an exception to its caller instead of returning a neutral
default: the fail-open policy does NOT cover every operation. -/
theorem unsubscribe_propagates_error :
    RedisService.unsubscribe ⟨false, [], [], ["chat_tokens"], []⟩ "chat_tokens"
      = Except.error ("Failed to unsubscribe from " ++ "chat_tokens") := rfl

/-- C9 amended.  With the store unavailable, every adapter operation
except unsubscribe catches the failure internally and returns a neutral
default (none or empty for reads, unchanged state for writes); the one
exception is unsubscribe, which propagates an error. -/
theorem redis_fail_open_except_unsubscribe
    (st : RedisState) (h : st.available = false)
    (key value channel payload member : String) (ttl : Nat) (keyList : List String) :
    RedisService.get st key = (none, st)
    ∧ RedisService.set st key value (some ttl) = st
    ∧ RedisService.set st key value none = st
    ∧ RedisService.incr st key = (0, st)
    ∧ RedisService.expire st key ttl = (false, st)
    ∧ RedisService.del st keyList = (0, st)
    ∧ RedisService.keys st key = ([], st)
    ∧ RedisService.sadd st key member = (0, st)
    ∧ RedisService.srem st key member = (0, st)
    ∧ RedisService.smembers st key = ([], st)
    ∧ RedisService.setWithExpiry st key value ttl = st
    ∧ RedisService.publish st channel payload = st
    ∧ RedisService.subscribe st channel = st
    ∧ RedisService.unsubscribe st channel
        = Except.error ("Failed to unsubscribe from " ++ channel) := by
  refine ⟨?_, ?_, ?_, ?_, ?_, ?_, ?_, ?_, ?_, ?_, ?_, ?_, ?_, ?_⟩ <;>
    simp [RedisService.get, RedisService.set, RedisService.incr,
      RedisService.expire, RedisService.del, RedisService.keys,
      RedisService.sadd, RedisService.srem, RedisService.smembers,
      RedisService.setWithExpiry, RedisService.publish,
      RedisService.subscribe, RedisService.unsubscribe, h]

/-- Witness for C9 amended (unavailable store, concrete arguments). -/
theorem redis_fail_open_except_unsubscribe_witness :
    RedisService.get ⟨false, [], [], [], []⟩ "session:s1" = (none, ⟨false, [], [], [], []⟩) :=
  (redis_fail_open_except_unsubscribe ⟨false, [], [], [], []⟩ rfl
    "session:s1" "v" "logs" "p" "m" 60 ["a", "b"]).1

/-! ### Session Store: `SessionService` (session.service.ts)

The two Redis key spaces the service uses — `session:` ++ sessionId for
the record (a string holding the JSON of SessionData, written with
setex/set) and `session:ip:` ++ ipAddress for the reverse-lookup set —
are modelled by the two tables of `SessStore`, keyed by the raw
sessionId / ipAddress; each table entry carries the key's physical
Redis ttl (seconds), `none` when the key has no expiry.  The JSON
round trip of the record is the identity and is modelled by storing
`SessionData` directly.

`getSession` and `deleteSession` are mutually recursive in the source:
getSession on a logically expired record awaits deleteSession, and
deleteSession first awaits getSession.  The embedding makes that
recursion explicit with a fuel argument; `none` means the call has not
returned within the given fuel. -/

structure SessionData where
  sessionId : String
  createdAt : Nat
  lastActivity : Nat
  ipAddress : String
  userAgent : String
  messageCount : Nat
  isActive : Bool
deriving DecidableEq, Repr

structure SessionConfig where
  ttl : Nat
  cleanupInterval : Nat
  maxSessionsPerIP : Nat
  extendOnActivity : Bool
deriving DecidableEq, Repr

structure SessionCreateOptions where
  sessionId : String
  ipAddress : String
  userAgent : String
deriving DecidableEq, Repr

structure SessionUpdateOptions where
  lastActivity : Option Nat
  messageCount : Option Nat
  isActive : Option Bool
deriving DecidableEq, Repr

structure SessStore where
  sessions : List (String × SessionData × Option Nat)
  ipIndex : List (String × List String × Option Nat)
deriving DecidableEq, Repr

def kvSetSession (st : SessStore) (id : String) (d : SessionData)
    (ttl : Option Nat) : SessStore :=
  { st with sessions := alistInsert st.sessions id (d, ttl) }

def kvDelSession (st : SessStore) (id : String) : Nat × SessStore :=
  ((if (alistLookup st.sessions id).isSome then 1 else 0),
   { st with sessions := alistErase st.sessions id })

def smembersIp (st : SessStore) (ip : String) : List String :=
  match alistLookup st.ipIndex ip with
  | some (ms, _) => ms
  | none => []

def saddIp (st : SessStore) (ip id : String) : SessStore :=
  match alistLookup st.ipIndex ip with
  | some (ms, t) =>
    let ms2 := if id ∈ ms then ms else ms ++ [id]
    { st with ipIndex := alistInsert st.ipIndex ip (ms2, t) }
  | none => { st with ipIndex := alistInsert st.ipIndex ip ([id], none) }

def sremIp (st : SessStore) (ip id : String) : SessStore :=
  match alistLookup st.ipIndex ip with
  | some (ms, t) =>
    { st with ipIndex := alistInsert st.ipIndex ip (ms.filter (fun m => m ≠ id), t) }
  | none => st

def expireIp (st : SessStore) (ip : String) (ttl : Nat) : SessStore :=
  match alistLookup st.ipIndex ip with
  | some (ms, _) => { st with ipIndex := alistInsert st.ipIndex ip (ms, some ttl) }
  | none => st

mutual

/-- SessionService.getSession: read the record; absent gives null; a
record with now - lastActivity > ttl*1000 is deleted (await
deleteSession) and reported as null; otherwise the record is returned. -/
def getSessionF (cfg : SessionConfig) :
    Nat → SessStore → String → Nat → Option (Option SessionData × SessStore)
  | 0, _, _, _ => none
  | fuel + 1, st, id, now =>
    match alistLookup st.sessions id with
    | none => some (none, st)
    | some (d, _) =>
      if cfg.ttl * 1000 < now - d.lastActivity then
        match deleteSessionF cfg fuel st id now with
        | none => none
        | some (_, st2) => some (none, st2)
      else some (some d, st)

/-- SessionService.deleteSession: await getSession (to learn the IP for
the index removal), srem from the IP index when a record was returned,
then del the session key; the result is del's count > 0. -/
def deleteSessionF (cfg : SessionConfig) :
    Nat → SessStore → String → Nat → Option (Bool × SessStore)
  | 0, _, _, _ => none
  | fuel + 1, st, id, now =>
    match getSessionF cfg fuel st id now with
    | none => none
    | some (sd, st1) =>
      let st2 := match sd with
        | some d => sremIp st1 d.ipAddress id
        | none => st1
      let p := kvDelSession st2 id
      some (decide (0 < p.1), p.2)

end

/-- SessionService.validateSession: false when getSession returns null
or the record is inactive; false on an IP mismatch when an address is
supplied; true otherwise. -/
def validateSessionF (cfg : SessionConfig) (fuel : Nat) (st : SessStore)
    (id : String) (ip : Option String) (now : Nat) : Option (Bool × SessStore) :=
  match getSessionF cfg fuel st id now with
  | none => none
  | some (none, st1) => some (false, st1)
  | some (some d, st1) =>
    if !d.isActive then some (false, st1)
    else
      match ip with
      | some a => if d.ipAddress ≠ a then some (false, st1) else some (true, st1)
      | none => some (true, st1)

/-- The spread-merge of updateSession;
`updates.lastActivity || Date.now()` treats 0 as absent. -/
def applyUpdates (d : SessionData) (u : SessionUpdateOptions) (now : Nat) :
    SessionData :=
  { d with
    lastActivity := match u.lastActivity with
      | some t => if t = 0 then now else t
      | none => now
    messageCount := u.messageCount.getD d.messageCount
    isActive := u.isActive.getD d.isActive }

/-- SessionService.updateSession: getSession, merge, then setex with the
configured ttl when extendOnActivity is set, else a plain SET (which
carries no expiry). -/
def updateSessionF (cfg : SessionConfig) (fuel : Nat) (st : SessStore)
    (id : String) (u : SessionUpdateOptions) (now : Nat) :
    Option (Option SessionData × SessStore) :=
  match getSessionF cfg fuel st id now with
  | none => none
  | some (none, st1) => some (none, st1)
  | some (some d, st1) =>
    let d2 := applyUpdates d u now
    if cfg.extendOnActivity then
      some (some d2, kvSetSession st1 id d2 (some cfg.ttl))
    else
      some (some d2, kvSetSession st1 id d2 none)

/-- The member loop of SessionService.getSessionCountByIP: getSession on
each indexed id, counting the live ones and pruning dead ids from the
index. -/
def countLoopF (cfg : SessionConfig) (fuel : Nat) :
    SessStore → String → List String → Nat → Nat → Option (Nat × SessStore)
  | st, _, [], _, acc => some (acc, st)
  | st, ip, id :: rest, now, acc =>
    match getSessionF cfg fuel st id now with
    | none => none
    | some (some _, st1) => countLoopF cfg fuel st1 ip rest now (acc + 1)
    | some (none, st1) => countLoopF cfg fuel (sremIp st1 ip id) ip rest now acc

def getSessionCountByIPF (cfg : SessionConfig) (fuel : Nat) (st : SessStore)
    (ip : String) (now : Nat) : Option (Nat × SessStore) :=
  countLoopF cfg fuel st ip (smembersIp st ip) now 0

/-- The record createSession persists: fresh timestamps, zero message
count, active. -/
def newSessionData (opts : SessionCreateOptions) (now : Nat) : SessionData :=
  { sessionId := opts.sessionId, createdAt := now, lastActivity := now,
    ipAddress := opts.ipAddress, userAgent := opts.userAgent,
    messageCount := 0, isActive := true }

/-- The store after createSession's three writes: setex of the record,
sadd into the IP index, and expire of the index key. -/
def createdStore (cfg : SessionConfig) (st1 : SessStore)
    (opts : SessionCreateOptions) (now : Nat) : SessStore :=
  expireIp
    (saddIp (kvSetSession st1 opts.sessionId (newSessionData opts now) (some cfg.ttl))
      opts.ipAddress opts.sessionId)
    opts.ipAddress cfg.ttl

/-- SessionService.createSession: count the IP's still-valid sessions,
reject at the cap; otherwise persist the record with setex(ttl), sadd it
into the IP index and re-arm the index key's expiry. -/
def createSessionF (cfg : SessionConfig) (fuel : Nat) (st : SessStore)
    (opts : SessionCreateOptions) (now : Nat) :
    Option (Except String SessionData × SessStore) :=
  match getSessionCountByIPF cfg fuel st opts.ipAddress now with
  | none => none
  | some (count, st1) =>
    if cfg.maxSessionsPerIP ≤ count then
      some (Except.error ("Too many sessions for IP: " ++ opts.ipAddress
        ++ ". Max: " ++ toString cfg.maxSessionsPerIP), st1)
    else
      some (Except.ok (newSessionData opts now), createdStore cfg st1 opts now)

/-- SessionService.incrementMessageCount: getSession (an absent session
is an error the gateway swallows), then updateSession with the bumped
count and a fresh lastActivity. -/
def incrementMessageCountF (cfg : SessionConfig) (fuel : Nat) (st : SessStore)
    (id : String) (now : Nat) : Option (Except String Nat × SessStore) :=
  match getSessionF cfg fuel st id now with
  | none => none
  | some (none, st1) => some (Except.error ("Session not found: " ++ id), st1)
  | some (some d, st1) =>
    match updateSessionF cfg fuel st1 id ⟨some now, some (d.messageCount + 1), none⟩ now with
    | none => none
    | some (_, st2) => some (Except.ok (d.messageCount + 1), st2)

/-- The loop body of SessionService.cleanupExpiredSessions: read each
session key, delete it (via deleteSession) when inactive or logically
expired.  (The source enumerates keys matching session:*, which also
returns the IP-index set keys; GET on those fails inside RedisService
and yields null, so they are skipped — the model iterates the session
table directly.) -/
def cleanupLoopF (cfg : SessionConfig) (fuel : Nat) :
    SessStore → List String → Nat → Nat → Option (Nat × SessStore)
  | st, [], _, acc => some (acc, st)
  | st, id :: rest, now, acc =>
    match alistLookup st.sessions id with
    | none => cleanupLoopF cfg fuel st rest now acc
    | some (d, _) =>
      if !d.isActive || decide (cfg.ttl * 1000 < now - d.lastActivity) then
        match deleteSessionF cfg fuel st id now with
        | none => none
        | some (_, st2) => cleanupLoopF cfg fuel st2 rest now (acc + 1)
      else cleanupLoopF cfg fuel st rest now acc

def cleanupExpiredSessionsF (cfg : SessionConfig) (fuel : Nat) (st : SessStore)
    (now : Nat) : Option (Nat × SessStore) :=
  cleanupLoopF cfg fuel st (st.sessions.map (fun p => p.1)) now 0

/-- A stored session that is present and logically unexpired at `now`. -/
def sessionValidAt (cfg : SessionConfig) (st : SessStore) (id : String)
    (now : Nat) : Bool :=
  match alistLookup st.sessions id with
  | some (d, _) => decide (now - d.lastActivity ≤ cfg.ttl * 1000)
  | none => false

/-- Modelled from the spec: "true only if the session exists, is active,
and (when an address is supplied) the stored address matches". -/
def validateSessionSpec (cfg : SessionConfig) (st : SessStore) (id : String)
    (ip : Option String) (now : Nat) : Bool :=
  match alistLookup st.sessions id with
  | none => false
  | some (d, _) =>
    decide (now - d.lastActivity ≤ cfg.ttl * 1000) && d.isActive &&
      (match ip with
       | some a => decide (d.ipAddress = a)
       | none => true)

theorem getSessionF_of_valid (cfg : SessionConfig) (k : Nat) (st : SessStore)
    (id : String) (now : Nat) (d : SessionData) (t : Option Nat)
    (hl : alistLookup st.sessions id = some (d, t))
    (hu : now - d.lastActivity ≤ cfg.ttl * 1000) :
    getSessionF cfg (k + 1) st id now = some (some d, st) := by
  simp [getSessionF, hl, Nat.not_lt.mpr hu]

theorem getSessionF_of_missing (cfg : SessionConfig) (k : Nat) (st : SessStore)
    (id : String) (now : Nat) (hl : alistLookup st.sessions id = none) :
    getSessionF cfg (k + 1) st id now = some (none, st) := by
  simp [getSessionF, hl]

/-- The mutual recursion of getSession and deleteSession never returns
on a present but logically expired record: getSession's expiry branch
awaits deleteSession, which first awaits getSession on the unchanged
store. -/
theorem expired_session_recursion (cfg : SessionConfig) (st : SessStore)
    (id : String) (now : Nat) (d : SessionData) (t : Option Nat)
    (hl : alistLookup st.sessions id = some (d, t))
    (he : cfg.ttl * 1000 < now - d.lastActivity) :
    ∀ fuel, getSessionF cfg fuel st id now = none
      ∧ deleteSessionF cfg fuel st id now = none := by
  intro fuel
  induction fuel with
  | zero => exact ⟨rfl, rfl⟩
  | succ n ih =>
    refine ⟨?_, ?_⟩
    · simp [getSessionF, hl, he, ih.2]
    · simp [deleteSessionF, ih.1]

/-- getSession does not return (at any fuel) on this store, id and time. -/
def getSessionHangs (cfg : SessionConfig) (st : SessStore) (id : String)
    (now : Nat) : Prop :=
  ∀ fuel, getSessionF cfg fuel st id now = none

/-- cleanupExpiredSessions does not return (at any fuel). -/
def cleanupHangs (cfg : SessionConfig) (st : SessStore) (now : Nat) : Prop :=
  ∀ fuel, cleanupExpiredSessionsF cfg fuel st now = none

/-- Counting over ids that are all valid touches nothing and counts them
all. -/
theorem countLoopF_all_valid (cfg : SessionConfig) (k : Nat) :
    ∀ (ids : List String) (st : SessStore) (ip : String) (now acc : Nat),
      (∀ id ∈ ids, sessionValidAt cfg st id now = true) →
      countLoopF cfg (k + 1) st ip ids now acc = some (acc + ids.length, st) := by
  intro ids
  induction ids with
  | nil => intro st ip now acc _; simp [countLoopF]
  | cons id rest ih =>
    intro st ip now acc hv
    have hid := hv id (by simp)
    unfold sessionValidAt at hid
    cases hlook : alistLookup st.sessions id with
    | none => rw [hlook] at hid; exact absurd hid (by simp)
    | some p =>
      obtain ⟨d, t⟩ := p
      rw [hlook] at hid
      have hu : now - d.lastActivity ≤ cfg.ttl * 1000 := by
        simpa using hid
      have hget := getSessionF_of_valid cfg k st id now d t hlook hu
      have hrest : ∀ i ∈ rest, sessionValidAt cfg st i now = true := by
        intro i hi; exact hv i (by simp [hi])
      have := ih st ip now (acc + 1) hrest
      simp only [countLoopF, hget]
      rw [this]
      have harith : acc + 1 + rest.length = acc + (rest.length + 1) := by omega
      rw [harith]
      rfl

/-- C8.  Whenever validateSession returns, its result is true exactly
when the session exists (present and logically unexpired), is active,
and — when an address is supplied — the stored address equals it. -/
theorem validateSession_matches_spec (cfg : SessionConfig) (fuel : Nat)
    (st : SessStore) (id : String) (ip : Option String) (now : Nat)
    (b : Bool) (st' : SessStore)
    (h : validateSessionF cfg fuel st id ip now = some (b, st')) :
    b = validateSessionSpec cfg st id ip now := by
  cases fuel with
  | zero => simp [validateSessionF, getSessionF] at h
  | succ k =>
    cases hlook : alistLookup st.sessions id with
    | none =>
      have hget := getSessionF_of_missing cfg k st id now hlook
      rw [validateSessionF, hget] at h
      simp at h
      simp [validateSessionSpec, hlook, h.1]
    | some p =>
      obtain ⟨d, t⟩ := p
      by_cases hexp : cfg.ttl * 1000 < now - d.lastActivity
      · have hdiv := (expired_session_recursion cfg st id now d t hlook hexp (k + 1)).1
        rw [validateSessionF, hdiv] at h
        exact absurd h (by simp)
      · have hu : now - d.lastActivity ≤ cfg.ttl * 1000 := Nat.not_lt.mp hexp
        have hget := getSessionF_of_valid cfg k st id now d t hlook hu
        rw [validateSessionF, hget] at h
        simp only [validateSessionSpec, hlook, decide_eq_true hu, Bool.true_and]
        cases hact : d.isActive with
        | false => simp [hact] at h; simp [h.1]
        | true =>
          simp only [hact, Bool.not_true, Bool.false_eq_true, if_false,
            Bool.true_and]
          cases ip with
          | none => simp [hact] at h; simp [h.1]
          | some a =>
            by_cases hip : d.ipAddress = a
            · simp [hip, hact] at h; simp [hip, h.1]
            · simp [hip, hact] at h; simp [hip, h.1]

theorem filter_ne_of_not_mem {l : List String} {a : String} (h : a ∉ l) :
    l.filter (fun m => m ≠ a) = l := by
  induction l with
  | nil => rfl
  | cons x xs ih =>
    have hx : x ≠ a := fun hxa => h (by simp [hxa])
    have hxs : a ∉ xs := fun hm => h (by simp [hm])
    rw [List.filter_cons, if_pos (by simp [hx]), ih hxs]

theorem filter_ne_length_of_nodup {l : List String} {a : String}
    (hnd : l.Nodup) (ha : a ∈ l) :
    (l.filter (fun m => m ≠ a)).length = l.length - 1 := by
  induction l with
  | nil => simp at ha
  | cons x xs ih =>
    by_cases hxa : x = a
    · subst hxa
      have hnx : x ∉ xs := (List.nodup_cons.mp hnd).1
      rw [List.filter_cons, if_neg (by simp), filter_ne_of_not_mem hnx]
      simp
    · have hax : a ∈ xs := by
        rcases List.mem_cons.mp ha with h | h
        · exact absurd h.symm hxa
        · exact h
      have hlen := ih (List.nodup_cons.mp hnd).2 hax
      have hpos : 1 ≤ xs.length := List.length_pos.mpr (List.ne_nil_of_mem hax)
      rw [List.filter_cons, if_pos (by simp [hxa])]
      simp only [List.length_cons, hlen]
      omega

/-! Structural facts: the session table and the IP index are disjoint
key spaces, so each Redis operation touches exactly one of the two
tables of the model. -/

theorem sremIp_sessions (st : SessStore) (ip id : String) :
    (sremIp st ip id).sessions = st.sessions := by
  unfold sremIp
  cases alistLookup st.ipIndex ip with
  | none => rfl
  | some p => cases p; rfl

theorem saddIp_sessions (st : SessStore) (ip id : String) :
    (saddIp st ip id).sessions = st.sessions := by
  unfold saddIp
  cases alistLookup st.ipIndex ip with
  | none => rfl
  | some p => cases p; rfl

theorem expireIp_sessions (st : SessStore) (ip : String) (ttl : Nat) :
    (expireIp st ip ttl).sessions = st.sessions := by
  unfold expireIp
  cases alistLookup st.ipIndex ip with
  | none => rfl
  | some p => cases p; rfl

theorem kvDelSession_ipIndex (st : SessStore) (id : String) :
    (kvDelSession st id).2.ipIndex = st.ipIndex := rfl

theorem kvSetSession_ipIndex (st : SessStore) (id : String) (d : SessionData)
    (t : Option Nat) : (kvSetSession st id d t).ipIndex = st.ipIndex := rfl

theorem smembersIp_only_ipIndex (st st' : SessStore) (ip : String)
    (h : st.ipIndex = st'.ipIndex) : smembersIp st ip = smembersIp st' ip := by
  unfold smembersIp
  rw [h]

theorem smembersIp_sremIp (st : SessStore) (ip id : String) :
    smembersIp (sremIp st ip id) ip
      = (smembersIp st ip).filter (fun m => m ≠ id) := by
  unfold sremIp smembersIp
  cases hl : alistLookup st.ipIndex ip with
  | none => simp [hl]
  | some p =>
    obtain ⟨ms, t⟩ := p
    simp [hl, alistLookup_insert_self]

theorem smembersIp_expireIp (st : SessStore) (ip : String) (ttl : Nat) :
    smembersIp (expireIp st ip ttl) ip = smembersIp st ip := by
  unfold expireIp smembersIp
  cases hl : alistLookup st.ipIndex ip with
  | none => simp [hl]
  | some p =>
    obtain ⟨ms, t⟩ := p
    simp [hl, alistLookup_insert_self]

theorem mem_smembersIp_saddIp (st : SessStore) (ip id : String) :
    id ∈ smembersIp (saddIp st ip id) ip := by
  unfold saddIp smembersIp
  cases hl : alistLookup st.ipIndex ip with
  | none => simp [hl, alistLookup_insert_self]
  | some p =>
    obtain ⟨ms, t⟩ := p
    by_cases hm : id ∈ ms
    · simp [hl, alistLookup_insert_self, hm]
    · simp [hl, alistLookup_insert_self, hm]

theorem alistLookup_erase_ne {β : Type} (l : List (String × β)) (k k' : String)
    (h : k' ≠ k) : alistLookup (alistErase l k) k' = alistLookup l k' := by
  induction l with
  | nil => rfl
  | cons p rest ih =>
    obtain ⟨pk, pv⟩ := p
    simp only [alistErase, List.filter_cons] at ih ⊢
    by_cases hp : pk = k
    · rw [if_neg (by simp [hp])]
      simp only [alistLookup]
      rw [if_neg (fun hEq => h (by rw [← hEq, hp]))]
      exact ih
    · rw [if_pos (by simp [hp])]
      simp only [alistLookup]
      by_cases hk' : pk = k'
      · simp [hk']
      · rw [if_neg hk', if_neg hk']
        exact ih

/-- C7.  When an address owns exactly the configured maximum of
still-valid (unexpired) sessions, createSession for that address fails
with the TooManySessions error and persists nothing (the store is
unchanged); deleting one of those sessions succeeds, and a subsequent
createSession for the same address succeeds, persists the new record
with the configured time-to-live, and adds it to the address's
reverse-lookup index. -/
theorem createSession_cap_enforced
    (cfg : SessionConfig) (k : Nat) (st : SessStore)
    (opts : SessionCreateOptions) (now : Nat) (id0 : String)
    (d0 : SessionData) (t0 : Option Nat)
    (hval : ∀ id ∈ smembersIp st opts.ipAddress,
      sessionValidAt cfg st id now = true)
    (hlen : (smembersIp st opts.ipAddress).length = cfg.maxSessionsPerIP)
    (hnodup : (smembersIp st opts.ipAddress).Nodup)
    (hmem : id0 ∈ smembersIp st opts.ipAddress)
    (hlook0 : alistLookup st.sessions id0 = some (d0, t0))
    (hip0 : d0.ipAddress = opts.ipAddress) :
    createSessionF cfg (k + 1) st opts now
      = some (Except.error ("Too many sessions for IP: " ++ opts.ipAddress
          ++ ". Max: " ++ toString cfg.maxSessionsPerIP), st)
    ∧ deleteSessionF cfg (k + 2) st id0 now
        = some (true, (kvDelSession (sremIp st opts.ipAddress id0) id0).2)
    ∧ createSessionF cfg (k + 1)
          ((kvDelSession (sremIp st opts.ipAddress id0) id0).2) opts now
        = some (Except.ok (newSessionData opts now),
            createdStore cfg ((kvDelSession (sremIp st opts.ipAddress id0) id0).2)
              opts now)
    ∧ alistLookup (createdStore cfg
          ((kvDelSession (sremIp st opts.ipAddress id0) id0).2) opts now).sessions
          opts.sessionId
        = some (newSessionData opts now, some cfg.ttl)
    ∧ opts.sessionId ∈ smembersIp (createdStore cfg
          ((kvDelSession (sremIp st opts.ipAddress id0) id0).2) opts now)
          opts.ipAddress := by
  have hcnt := countLoopF_all_valid cfg k (smembersIp st opts.ipAddress) st
    opts.ipAddress now 0 hval
  have hA : createSessionF cfg (k + 1) st opts now
      = some (Except.error ("Too many sessions for IP: " ++ opts.ipAddress
          ++ ". Max: " ++ toString cfg.maxSessionsPerIP), st) := by
    unfold createSessionF getSessionCountByIPF
    rw [hcnt]
    have hcond : cfg.maxSessionsPerIP ≤ 0 + (smembersIp st opts.ipAddress).length := by
      omega
    simp [hcond]
    omega
  have hu0 : now - d0.lastActivity ≤ cfg.ttl * 1000 := by
    have h := hval id0 hmem
    unfold sessionValidAt at h
    rw [hlook0] at h
    exact of_decide_eq_true h
  have hget0 := getSessionF_of_valid cfg k st id0 now d0 t0 hlook0 hu0
  have hB : deleteSessionF cfg (k + 2) st id0 now
      = some (true, (kvDelSession (sremIp st opts.ipAddress id0) id0).2) := by
    show deleteSessionF cfg ((k + 1) + 1) st id0 now = _
    rw [deleteSessionF, hget0]
    simp only [hip0]
    have hlk : (alistLookup (sremIp st opts.ipAddress id0).sessions id0).isSome = true := by
      rw [sremIp_sessions, hlook0]
      rfl
    simp [kvDelSession, hlk]
  have hsessD : ((kvDelSession (sremIp st opts.ipAddress id0) id0).2).sessions
      = alistErase st.sessions id0 := by
    show alistErase (sremIp st opts.ipAddress id0).sessions id0 = _
    rw [sremIp_sessions]
  have hmemD : smembersIp ((kvDelSession (sremIp st opts.ipAddress id0) id0).2)
        opts.ipAddress
      = (smembersIp st opts.ipAddress).filter (fun m => m ≠ id0) := by
    have h1 : smembersIp ((kvDelSession (sremIp st opts.ipAddress id0) id0).2)
        opts.ipAddress = smembersIp (sremIp st opts.ipAddress id0) opts.ipAddress :=
      smembersIp_only_ipIndex _ _ _ rfl
    rw [h1, smembersIp_sremIp]
  have hvalD : ∀ id ∈ smembersIp ((kvDelSession (sremIp st opts.ipAddress id0) id0).2)
        opts.ipAddress,
      sessionValidAt cfg ((kvDelSession (sremIp st opts.ipAddress id0) id0).2) id now
        = true := by
    intro id hid
    rw [hmemD] at hid
    have hidL := (List.mem_filter.mp hid).1
    have hidne : id ≠ id0 := by
      have := (List.mem_filter.mp hid).2
      simpa using this
    unfold sessionValidAt
    rw [hsessD, alistLookup_erase_ne _ _ _ hidne]
    have h := hval id hidL
    unfold sessionValidAt at h
    exact h
  have hcntD := countLoopF_all_valid cfg k
    (smembersIp ((kvDelSession (sremIp st opts.ipAddress id0) id0).2) opts.ipAddress)
    ((kvDelSession (sremIp st opts.ipAddress id0) id0).2) opts.ipAddress now 0 hvalD
  have hpos : 1 ≤ cfg.maxSessionsPerIP := by
    have := List.length_pos.mpr (List.ne_nil_of_mem hmem)
    omega
  have hflen : (smembersIp ((kvDelSession (sremIp st opts.ipAddress id0) id0).2)
        opts.ipAddress).length = cfg.maxSessionsPerIP - 1 := by
    rw [hmemD, filter_ne_length_of_nodup hnodup hmem, hlen]
  have hC : createSessionF cfg (k + 1)
        ((kvDelSession (sremIp st opts.ipAddress id0) id0).2) opts now
      = some (Except.ok (newSessionData opts now),
          createdStore cfg ((kvDelSession (sremIp st opts.ipAddress id0) id0).2)
            opts now) := by
    unfold createSessionF getSessionCountByIPF
    rw [hcntD]
    have hcond : ¬ (cfg.maxSessionsPerIP
        ≤ 0 + (smembersIp ((kvDelSession (sremIp st opts.ipAddress id0) id0).2)
            opts.ipAddress).length) := by
      rw [hflen]
      omega
    simp [hcond]
    omega
  have hD : alistLookup (createdStore cfg
        ((kvDelSession (sremIp st opts.ipAddress id0) id0).2) opts now).sessions
        opts.sessionId
      = some (newSessionData opts now, some cfg.ttl) := by
    unfold createdStore
    rw [expireIp_sessions, saddIp_sessions]
    exact alistLookup_insert_self _ _ _
  have hE : opts.sessionId ∈ smembersIp (createdStore cfg
        ((kvDelSession (sremIp st opts.ipAddress id0) id0).2) opts now)
        opts.ipAddress := by
    unfold createdStore
    rw [smembersIp_expireIp]
    exact mem_smembersIp_saddIp _ _ _
  exact ⟨hA, hB, hC, hD, hE⟩

/-- A concrete stored session for the witnesses. -/
def sessionDW : SessionData := ⟨"s1", 0, 0, "1.2.3.4", "UA", 0, true⟩

/-- A concrete store holding that one session, indexed under its IP. -/
def sessStoreW : SessStore :=
  ⟨[("s1", sessionDW, some 3600)], [("1.2.3.4", ["s1"], some 3600)]⟩

/-- A session configuration capping each IP at one session. -/
def capOneCfgW : SessionConfig := ⟨3600, 3600000, 1, true⟩

/-- Witness for C7: with the cap at 1 and one valid session stored for
the address, creating a second session for it fails with the
TooManySessions error and the store is unchanged. -/
theorem createSession_cap_enforced_witness :
    createSessionF capOneCfgW 1 sessStoreW ⟨"s2", "1.2.3.4", "UA2"⟩ 100
      = some (Except.error ("Too many sessions for IP: " ++ "1.2.3.4"
          ++ ". Max: " ++ toString capOneCfgW.maxSessionsPerIP), sessStoreW) :=
  (createSession_cap_enforced capOneCfgW 0 sessStoreW ⟨"s2", "1.2.3.4", "UA2"⟩ 100
    "s1" sessionDW (some 3600) (by decide) (by decide) (by decide) (by decide)
    (by decide) (by decide)).1

/-- A standard session configuration for the C8 witness. -/
def stdCfgW : SessionConfig := ⟨3600, 3600000, 10, true⟩

/-- Witness for C8: validating the stored (unexpired, active) session
against a different address returns false, and the spec predicate agrees. -/
theorem validateSession_matches_spec_witness :
    false = validateSessionSpec stdCfgW sessStoreW "s1" (some "9.9.9.9") 100 :=
  validateSession_matches_spec stdCfgW 1 sessStoreW "s1" (some "9.9.9.9") 100
    false sessStoreW (by decide)

/-- Physical (Redis-side) expiry: after `delta` seconds, keys whose ttl
has elapsed disappear; keys without a ttl survive with their ttl still
absent. -/
def advanceEntry {γ : Type} (delta : Nat) (p : String × γ × Option Nat) :
    Option (String × γ × Option Nat) :=
  match p with
  | (k, v, none) => some (k, v, none)
  | (k, v, some t) => if delta < t then some (k, v, some (t - delta)) else none

def advancePhysical (st : SessStore) (delta : Nat) : SessStore :=
  ⟨st.sessions.filterMap (advanceEntry delta), st.ipIndex.filterMap (advanceEntry delta)⟩

theorem alistLookup_filterMap_advance {γ : Type} (delta : Nat) :
    ∀ (l : List (String × γ × Option Nat)) (id : String) (v : γ),
      alistLookup l id = some (v, none) →
      alistLookup (l.filterMap (advanceEntry delta)) id = some (v, none) := by
  intro l
  induction l with
  | nil => intro id v h; exact absurd h (by simp [alistLookup])
  | cons p rest ih =>
    intro id v h
    obtain ⟨pk, pv, pt⟩ := p
    by_cases hk : pk = id
    · subst hk
      simp only [alistLookup, if_pos rfl] at h
      obtain ⟨hv, ht⟩ : pv = v ∧ pt = none := by
        have := h
        cases ht' : pt <;> rw [ht'] at this <;> simp_all
      subst hv; subst ht
      simp [List.filterMap_cons, advanceEntry, alistLookup]
    · simp only [alistLookup, if_neg hk] at h
      simp only [List.filterMap_cons]
      cases pt with
      | none =>
        simp only [advanceEntry]
        simp only [alistLookup, if_neg hk]
        exact ih id v h
      | some t =>
        simp only [advanceEntry]
        by_cases hd : delta < t
        · rw [if_pos hd]
          simp only [alistLookup, if_neg hk]
          exact ih id v h
        · rw [if_neg hd]
          exact ih id v h

theorem advancePhysical_keeps_no_ttl (st : SessStore) (delta : Nat)
    (id : String) (d : SessionData)
    (h : alistLookup st.sessions id = some (d, none)) :
    alistLookup (advancePhysical st delta).sessions id = some (d, none) :=
  alistLookup_filterMap_advance delta st.sessions id d h

/-- C10 amended.  With extend-on-activity off, updateSession rewrites
the record with a plain SET carrying no time-to-live, so the backing
store's expiry is removed and the record survives any amount of
physical time.  But it is then never removed at all: once the record is
logically expired, getSession's lazy expiry path awaits deleteSession,
which re-awaits getSession on the unchanged store, and neither returns
(the cleanup sweep deletes through the same deleteSession, so it hangs
too). -/
theorem updateSession_no_ttl_hangs_on_expiry
    (cfg : SessionConfig) (k : Nat) (st : SessStore) (id : String)
    (u : SessionUpdateOptions) (now delta now2 : Nat)
    (d : SessionData) (t : Option Nat)
    (hext : cfg.extendOnActivity = false)
    (hlook : alistLookup st.sessions id = some (d, t))
    (hu : now - d.lastActivity ≤ cfg.ttl * 1000)
    (h2 : cfg.ttl * 1000 < now2 - (applyUpdates d u now).lastActivity) :
    updateSessionF cfg (k + 1) st id u now
      = some (some (applyUpdates d u now),
          kvSetSession st id (applyUpdates d u now) none)
    ∧ alistLookup (kvSetSession st id (applyUpdates d u now) none).sessions id
        = some (applyUpdates d u now, none)
    ∧ alistLookup (advancePhysical
          (kvSetSession st id (applyUpdates d u now) none) delta).sessions id
        = some (applyUpdates d u now, none)
    ∧ getSessionHangs cfg (kvSetSession st id (applyUpdates d u now) none) id now2 := by
  have hget := getSessionF_of_valid cfg k st id now d t hlook hu
  have h1 : updateSessionF cfg (k + 1) st id u now
      = some (some (applyUpdates d u now),
          kvSetSession st id (applyUpdates d u now) none) := by
    unfold updateSessionF
    rw [hget]
    simp [hext]
  have h2' : alistLookup (kvSetSession st id (applyUpdates d u now) none).sessions id
      = some (applyUpdates d u now, none) := by
    unfold kvSetSession
    exact alistLookup_insert_self _ _ _
  refine ⟨h1, h2', advancePhysical_keeps_no_ttl _ delta id _ h2', ?_⟩
  intro fuel
  exact (expired_session_recursion cfg
    (kvSetSession st id (applyUpdates d u now) none) id now2
    (applyUpdates d u now) none h2' h2 fuel).1

/-- The no-extend configuration and store for the C10 counterexample:
a 1-second ttl, one session last active at 0 with a 1-second physical
expiry on its key. -/
def noExtCfgW : SessionConfig := ⟨1, 3600000, 10, false⟩

def noExtStoreW : SessStore :=
  ⟨[("s1", sessionDW, some 1)], [("1.2.3.4", ["s1"], some 1)]⟩

/-- The record after updateSession at time 500 (lastActivity refreshed). -/
def noExtDataW : SessionData := ⟨"s1", 0, 500, "1.2.3.4", "UA", 0, true⟩

/-- The store after that updateSession: the record rewritten by plain
SET, so its key has no physical ttl any more. -/
def noExtStore2W : SessStore :=
  ⟨[("s1", noExtDataW, none)], [("1.2.3.4", ["s1"], some 1)]⟩

/-- C10 counterexample.  updateSession with extend-on-activity off
leaves the record with no physical ttl — but the record is then never
removed: at time 2000 (logically expired: 2000 - 500 > 1000 ms) both
getSession and the cleanup sweep recurse forever instead of deleting
it, so the claimed removal by the lazy expiry check or the periodic
sweep never happens. -/
theorem updateSession_no_ttl_never_removed :
    updateSessionF noExtCfgW 1 noExtStoreW "s1" ⟨none, none, none⟩ 500
      = some (some noExtDataW, noExtStore2W)
    ∧ alistLookup noExtStore2W.sessions "s1" = some (noExtDataW, none)
    ∧ getSessionHangs noExtCfgW noExtStore2W "s1" 2000
    ∧ cleanupHangs noExtCfgW noExtStore2W 2000 := by
  have hlook2 : alistLookup noExtStore2W.sessions "s1" = some (noExtDataW, none) := rfl
  have hexp : noExtCfgW.ttl * 1000 < 2000 - noExtDataW.lastActivity := by decide
  refine ⟨rfl, rfl, ?_, ?_⟩
  · intro fuel
    exact (expired_session_recursion noExtCfgW noExtStore2W "s1" 2000
      noExtDataW none hlook2 hexp fuel).1
  · intro fuel
    have hdel := (expired_session_recursion noExtCfgW noExtStore2W "s1" 2000
      noExtDataW none hlook2 hexp fuel).2
    simp only [noExtStore2W, noExtDataW, noExtCfgW] at hdel
    simp [cleanupExpiredSessionsF, cleanupLoopF, noExtStore2W, noExtDataW,
      noExtCfgW, alistLookup, hdel]

/-- Witness for C10 amended (concrete no-extend update). -/
theorem updateSession_no_ttl_hangs_on_expiry_witness :
    updateSessionF noExtCfgW 1 noExtStoreW "s1" ⟨none, none, none⟩ 500
      = some (some (applyUpdates sessionDW ⟨none, none, none⟩ 500),
          kvSetSession noExtStoreW "s1"
            (applyUpdates sessionDW ⟨none, none, none⟩ 500) none) :=
  (updateSession_no_ttl_hangs_on_expiry noExtCfgW 0 noExtStoreW "s1"
    ⟨none, none, none⟩ 500 5 2000 sessionDW (some 1)
    rfl rfl (by decide) (by decide)).1

/-! ### Relay: `ChatGateway.handleChatMessage` (logs.gateway.ts, second
section)

The handler's observable behaviour is the list of events emitted to the
requesting socket (`client.emit` of a chat message or of an error
object) and the list of messages published on the shared channel
(`redisService.publish`, which handleChatMessage never calls).  The
external inference call (agentService.sendMessage, already resolved to
its dto, where a missing response text is defaulted to the empty
string, or rejected) is a parameter.  The counters of the per-session message
quota are the abstract window-count table of the quota embedding. -/

structure ChatRequest where
  message : String
  sessionId : String
deriving DecidableEq, Repr

structure ChatResponseDto where
  response : String
  sources : List String
  toolCalls : List String
deriving DecidableEq, Repr

inductive GwEvent where
  | chat (sessionId token : String) (done : Bool) (sources toolCalls : List String)
  | err (code message : String)
deriving DecidableEq, Repr

/-- A terminating message for the client: a chat message with done, or
an error object. -/
def isTerminalEvent : GwEvent → Bool
  | GwEvent.chat _ _ done _ _ => done
  | GwEvent.err _ _ => true

structure GatewayCfg where
  sessionCfg : SessionConfig
  wsMessageRule : RateLimitRule

structure GatewayState where
  sess : SessStore
  msgCounters : String → Nat → Nat
  registry : List (String × String)

structure GwOutput where
  emitted : List GwEvent
  published : List (String × String)
  state : GatewayState

def wsMessageKey (sessionId : String) : String :=
  "rate_limit:ws_msg:" ++ sessionId

/-- The retryAfter interpolation in the rate-limit error message
(JavaScript prints undefined when the field is absent). -/
def retryAfterText (r : RateLimitResult) : String :=
  match r.retryAfter with
  | some k => toString k
  | none => "undefined"

/-- The rest of handleChatMessage once a session is in place: message
quota check (reject with retry-after), record, incrementMessageCount
(its failure is swallowed), registry update, typing indicator, then the
inference call — whose success is emitted directly when the response
text is non-empty, whose failure lands in the catch that emits
AGENT_ERROR, and whose success with empty text emits nothing further. -/
def handleAdmitted (cfg : GatewayCfg) (fuel : Nat) (gs : GatewayState)
    (clientId : String) (data : ChatRequest) (now : Nat)
    (inference : Except String ChatResponseDto) : Option GwOutput :=
  let key := wsMessageKey data.sessionId
  let ws := windowStartOf cfg.wsMessageRule.windowMs now
  let r := checkRateLimit cfg.wsMessageRule now (gs.msgCounters key ws)
  if r.allowed = false then
    some ⟨[GwEvent.err "MESSAGE_RATE_LIMIT"
      ("Too many messages. Try again in " ++ retryAfterText r ++ " seconds.")],
      [], gs⟩
  else
    let counters2 := fun k' w' =>
      if k' = key ∧ w' = ws then gs.msgCounters k' w' + 1 else gs.msgCounters k' w'
    match incrementMessageCountF cfg.sessionCfg fuel gs.sess data.sessionId now with
    | none => none
    | some (_, st3) =>
      let gs2 : GatewayState :=
        ⟨st3, counters2, alistInsert gs.registry clientId data.sessionId⟩
      let typing := GwEvent.chat data.sessionId "" false [] []
      match inference with
      | Except.error _ =>
        some ⟨[typing, GwEvent.err "AGENT_ERROR" "Failed to process chat message"],
          [], gs2⟩
      | Except.ok resp =>
        if resp.response = "" then some ⟨[typing], [], gs2⟩
        else
          some ⟨[typing,
            GwEvent.chat data.sessionId resp.response true resp.sources resp.toolCalls],
            [], gs2⟩

/-- ChatGateway.handleChatMessage: field validation, fetch-or-create of
the session (creation failure is terminal for the message), address
validation of an existing session, then the admitted path. -/
def handleChatMessage (cfg : GatewayCfg) (fuel : Nat) (gs : GatewayState)
    (clientId : String) (data : ChatRequest) (clientIP userAgent : String)
    (now : Nat) (inference : Except String ChatResponseDto) : Option GwOutput :=
  if data.message = "" ∨ data.sessionId = "" then
    some ⟨[GwEvent.err "INVALID_REQUEST" "Message and sessionId are required"],
      [], gs⟩
  else
    match getSessionF cfg.sessionCfg fuel gs.sess data.sessionId now with
    | none => none
    | some (none, st1) =>
      match createSessionF cfg.sessionCfg fuel st1
          ⟨data.sessionId, clientIP, userAgent⟩ now with
      | none => none
      | some (Except.error _, st2) =>
        some ⟨[GwEvent.err "SESSION_ERROR" "Failed to create session"], [],
          { gs with sess := st2 }⟩
      | some (Except.ok _, st2) =>
        handleAdmitted cfg fuel { gs with sess := st2 } clientId data now inference
    | some (some _, st1) =>
      match validateSessionF cfg.sessionCfg fuel st1 data.sessionId
          (some clientIP) now with
      | none => none
      | some (false, st2) =>
        some ⟨[GwEvent.err "SESSION_INVALID" "Invalid session"], [],
          { gs with sess := st2 }⟩
      | some (true, st2) =>
        handleAdmitted cfg fuel { gs with sess := st2 } clientId data now inference

theorem handleAdmitted_terminal_or_empty (cfg : GatewayCfg) (fuel : Nat)
    (gs : GatewayState) (clientId : String) (data : ChatRequest) (now : Nat)
    (inference : Except String ChatResponseDto) (out : GwOutput)
    (h : handleAdmitted cfg fuel gs clientId data now inference = some out) :
    (∃ e ∈ out.emitted, isTerminalEvent e = true)
    ∨ (∃ resp, inference = Except.ok resp ∧ resp.response = "") := by
  by_cases hr : (checkRateLimit cfg.wsMessageRule now
      (gs.msgCounters (wsMessageKey data.sessionId)
        (windowStartOf cfg.wsMessageRule.windowMs now))).allowed = false
  · have heval : handleAdmitted cfg fuel gs clientId data now inference
        = some ⟨[GwEvent.err "MESSAGE_RATE_LIMIT"
            ("Too many messages. Try again in "
              ++ retryAfterText (checkRateLimit cfg.wsMessageRule now
                  (gs.msgCounters (wsMessageKey data.sessionId)
                    (windowStartOf cfg.wsMessageRule.windowMs now)))
              ++ " seconds.")], [], gs⟩ := by
      simp [handleAdmitted, hr]
    rw [heval] at h
    rcases Option.some.inj h with rfl
    exact Or.inl ⟨GwEvent.err "MESSAGE_RATE_LIMIT"
      ("Too many messages. Try again in "
        ++ retryAfterText (checkRateLimit cfg.wsMessageRule now
            (gs.msgCounters (wsMessageKey data.sessionId)
              (windowStartOf cfg.wsMessageRule.windowMs now)))
        ++ " seconds."), by simp, rfl⟩
  · cases hinc : incrementMessageCountF cfg.sessionCfg fuel gs.sess
        data.sessionId now with
    | none =>
      have heval : handleAdmitted cfg fuel gs clientId data now inference = none := by
        simp [handleAdmitted, hr, hinc]
      rw [heval] at h
      exact absurd h (by simp)
    | some p =>
      obtain ⟨res, st3⟩ := p
      cases inference with
      | error e =>
        have heval : handleAdmitted cfg fuel gs clientId data now (Except.error e)
            = some ⟨[GwEvent.chat data.sessionId "" false [] [],
                GwEvent.err "AGENT_ERROR" "Failed to process chat message"], [],
                ⟨st3, fun k' w' =>
                  if k' = wsMessageKey data.sessionId
                      ∧ w' = windowStartOf cfg.wsMessageRule.windowMs now
                    then gs.msgCounters k' w' + 1 else gs.msgCounters k' w',
                  alistInsert gs.registry clientId data.sessionId⟩⟩ := by
          simp [handleAdmitted, hr, hinc]
        rw [heval] at h
        rcases Option.some.inj h with rfl
        exact Or.inl ⟨GwEvent.err "AGENT_ERROR" "Failed to process chat message",
          by simp, rfl⟩
      | ok resp =>
        by_cases hresp : resp.response = ""
        · exact Or.inr ⟨resp, rfl, hresp⟩
        · have heval : handleAdmitted cfg fuel gs clientId data now (Except.ok resp)
              = some ⟨[GwEvent.chat data.sessionId "" false [] [],
                  GwEvent.chat data.sessionId resp.response true
                    resp.sources resp.toolCalls], [],
                  ⟨st3, fun k' w' =>
                    if k' = wsMessageKey data.sessionId
                        ∧ w' = windowStartOf cfg.wsMessageRule.windowMs now
                      then gs.msgCounters k' w' + 1 else gs.msgCounters k' w',
                    alistInsert gs.registry clientId data.sessionId⟩⟩ := by
            simp [handleAdmitted, hr, hinc, hresp]
          rw [heval] at h
          rcases Option.some.inj h with rfl
          refine Or.inl ⟨GwEvent.chat data.sessionId resp.response true
            resp.sources resp.toolCalls, by simp, ?_⟩
          simp [isTerminalEvent]

/-- C4 amended.  Whenever handleChatMessage returns, it has emitted a
terminating message to the requesting client — a done chat message or a
well-formed error object — EXCEPT when the inference call succeeds with
an empty response text, in which case only the non-terminating typing
indicator is emitted and the interaction ends without a terminating
message. -/
theorem handleChatMessage_terminal_or_empty (cfg : GatewayCfg) (fuel : Nat)
    (gs : GatewayState) (clientId : String) (data : ChatRequest)
    (clientIP userAgent : String) (now : Nat)
    (inference : Except String ChatResponseDto) (out : GwOutput)
    (h : handleChatMessage cfg fuel gs clientId data clientIP userAgent now
        inference = some out) :
    (∃ e ∈ out.emitted, isTerminalEvent e = true)
    ∨ (∃ resp, inference = Except.ok resp ∧ resp.response = "") := by
  unfold handleChatMessage at h
  split at h
  · rcases Option.some.inj h with rfl
    exact Or.inl ⟨GwEvent.err "INVALID_REQUEST" "Message and sessionId are required",
      by simp, rfl⟩
  · split at h
    · exact absurd h (by simp)
    · split at h
      · exact absurd h (by simp)
      · rcases Option.some.inj h with rfl
        exact Or.inl ⟨GwEvent.err "SESSION_ERROR" "Failed to create session",
          by simp, rfl⟩
      · exact handleAdmitted_terminal_or_empty _ _ _ _ _ _ _ _ h
    · split at h
      · exact absurd h (by simp)
      · rcases Option.some.inj h with rfl
        exact Or.inl ⟨GwEvent.err "SESSION_INVALID" "Invalid session",
          by simp, rfl⟩
      · exact handleAdmitted_terminal_or_empty _ _ _ _ _ _ _ _ h

/-- Gateway fixtures: a standard config, and a state holding the one
valid session with fresh counters and an empty registry. -/
def gwCfgW : GatewayCfg := ⟨stdCfgW, ⟨60000, 100⟩⟩

def gwStateW : GatewayState := ⟨sessStoreW, fun _ _ => 0, []⟩

/-- C4 counterexample.  A validated, admitted message whose inference
call succeeds with an empty response text: the handler returns after
emitting only the typing indicator (done = false) — no terminating chat
message and no error object is delivered. -/
theorem handleChatMessage_empty_response_no_terminal :
    (handleChatMessage gwCfgW 1 gwStateW "cl1" ⟨"hi", "s1"⟩ "1.2.3.4" "UA" 100
        (Except.ok ⟨"", [], []⟩)).map (fun o => o.emitted)
      = some [GwEvent.chat "s1" "" false [] []]
    ∧ List.filter isTerminalEvent [GwEvent.chat "s1" "" false [] []] = [] :=
  ⟨rfl, rfl⟩

/-- Witness for C4 amended, at the concrete empty-response input (the
right disjunct holds). -/
theorem handleChatMessage_terminal_or_empty_witness :
    (∃ e ∈ [GwEvent.chat "s1" "" false [] []], isTerminalEvent e = true)
    ∨ (∃ resp, (Except.ok ⟨"", [], []⟩ : Except String ChatResponseDto)
        = Except.ok resp ∧ resp.response = "") := by
  have h := handleChatMessage_terminal_or_empty gwCfgW 1 gwStateW "cl1"
    ⟨"hi", "s1"⟩ "1.2.3.4" "UA" 100 (Except.ok ⟨"", [], []⟩)
    ⟨[GwEvent.chat "s1" "" false [] []], [],
      ((handleChatMessage gwCfgW 1 gwStateW "cl1" ⟨"hi", "s1"⟩ "1.2.3.4" "UA" 100
        (Except.ok ⟨"", [], []⟩)).getD ⟨[], [], gwStateW⟩).state⟩ rfl
  exact h

/-- C5 counterexample.  A validated, admitted message whose inference
call succeeds with a non-empty response: nothing is published on the
shared channel — the response is emitted directly to the requesting
socket only, so the relay does not publish a MessageEnvelope. -/
theorem handleChatMessage_success_publishes_nothing :
    (handleChatMessage gwCfgW 1 gwStateW "cl1" ⟨"hi", "s1"⟩ "1.2.3.4" "UA" 100
        (Except.ok ⟨"Hello!", [], []⟩)).map (fun o => o.published)
      = some []
    ∧ (handleChatMessage gwCfgW 1 gwStateW "cl1" ⟨"hi", "s1"⟩ "1.2.3.4" "UA" 100
        (Except.ok ⟨"Hello!", [], []⟩)).map (fun o => o.emitted)
      = some [GwEvent.chat "s1" "" false [] [],
          GwEvent.chat "s1" "Hello!" true [] []] :=
  ⟨rfl, rfl⟩

/-- C5 amended.  On the admitted path (valid session, quota allows), the
relay publishes nothing on the shared channel in either outcome: a
successful inference call with non-empty text is emitted directly to the
requesting socket as a done chat message, and a failed inference call is
emitted directly as an AGENT_ERROR error object on the error event — a
delivery mechanism distinct from the chat-response path, not the shared
publish/subscribe channel (publishChatToken exists in the adapter but
has no caller). -/
theorem handleChatMessage_direct_emit (cfg : GatewayCfg) (k : Nat)
    (gs : GatewayState) (clientId : String) (data : ChatRequest)
    (clientIP userAgent : String) (now : Nat) (resp : ChatResponseDto)
    (errMsg : String) (d : SessionData) (t : Option Nat)
    (hm : data.message ≠ "") (hs : data.sessionId ≠ "")
    (hlook : alistLookup gs.sess.sessions data.sessionId = some (d, t))
    (hu : now - d.lastActivity ≤ cfg.sessionCfg.ttl * 1000)
    (hact : d.isActive = true)
    (hip : d.ipAddress = clientIP)
    (hquota : gs.msgCounters (wsMessageKey data.sessionId)
        (windowStartOf cfg.wsMessageRule.windowMs now)
      < cfg.wsMessageRule.maxRequests) :
    ((handleChatMessage cfg (k + 1) gs clientId data clientIP userAgent now
        (Except.ok resp)).map (fun o => o.published) = some [])
    ∧ (resp.response ≠ "" →
        (handleChatMessage cfg (k + 1) gs clientId data clientIP userAgent now
          (Except.ok resp)).map (fun o => o.emitted)
        = some [GwEvent.chat data.sessionId "" false [] [],
            GwEvent.chat data.sessionId resp.response true
              resp.sources resp.toolCalls])
    ∧ ((handleChatMessage cfg (k + 1) gs clientId data clientIP userAgent now
        (Except.error errMsg)).map (fun o => o.published) = some [])
    ∧ ((handleChatMessage cfg (k + 1) gs clientId data clientIP userAgent now
        (Except.error errMsg)).map (fun o => o.emitted)
      = some [GwEvent.chat data.sessionId "" false [] [],
          GwEvent.err "AGENT_ERROR" "Failed to process chat message"]) := by
  have hget := getSessionF_of_valid cfg.sessionCfg k gs.sess data.sessionId now
    d t hlook hu
  have hvalid : validateSessionF cfg.sessionCfg (k + 1) gs.sess data.sessionId
      (some clientIP) now = some (true, gs.sess) := by
    unfold validateSessionF
    rw [hget]
    simp [hact, hip]
  have hupd : updateSessionF cfg.sessionCfg (k + 1) gs.sess data.sessionId
      ⟨some now, some (d.messageCount + 1), none⟩ now
      = some (some (applyUpdates d ⟨some now, some (d.messageCount + 1), none⟩ now),
          kvSetSession gs.sess data.sessionId
            (applyUpdates d ⟨some now, some (d.messageCount + 1), none⟩ now)
            (if cfg.sessionCfg.extendOnActivity then some cfg.sessionCfg.ttl
             else none)) := by
    unfold updateSessionF
    rw [hget]
    by_cases hx : cfg.sessionCfg.extendOnActivity
    · simp [hx]
    · simp [hx]
  have hinc : incrementMessageCountF cfg.sessionCfg (k + 1) gs.sess
      data.sessionId now
      = some (Except.ok (d.messageCount + 1),
          kvSetSession gs.sess data.sessionId
            (applyUpdates d ⟨some now, some (d.messageCount + 1), none⟩ now)
            (if cfg.sessionCfg.extendOnActivity then some cfg.sessionCfg.ttl
             else none)) := by
    simp [incrementMessageCountF, hget, hupd]
  have hmain : ∀ inf, handleChatMessage cfg (k + 1) gs clientId data clientIP
      userAgent now inf = handleAdmitted cfg (k + 1) gs clientId data now inf := by
    intro inf
    simp [handleChatMessage, hm, hs, hget, hvalid]
  have hr : ¬ ((checkRateLimit cfg.wsMessageRule now
      (gs.msgCounters (wsMessageKey data.sessionId)
        (windowStartOf cfg.wsMessageRule.windowMs now))).allowed = false) := by
    rw [checkRateLimit_allowed]
    simp [hquota]
  refine ⟨?_, ?_, ?_, ?_⟩
  · rw [hmain]
    simp only [handleAdmitted, hr, if_false, hinc]
    by_cases hresp : resp.response = "" <;> simp [hresp]
  · intro hne
    rw [hmain]
    simp only [handleAdmitted, hr, if_false, hinc]
    simp [hne]
  · rw [hmain]
    simp only [handleAdmitted, hr, if_false, hinc]
    simp
  · rw [hmain]
    simp only [handleAdmitted, hr, if_false, hinc]
    simp

/-- Witness for C5 amended: at the concrete valid-session state, a
failed inference call is emitted directly as an AGENT_ERROR object. -/
theorem handleChatMessage_direct_emit_witness :
    (handleChatMessage gwCfgW 1 gwStateW "cl1" ⟨"hi", "s1"⟩ "1.2.3.4" "UA" 100
        (Except.error "boom")).map (fun o => o.emitted)
      = some [GwEvent.chat "s1" "" false [] [],
          GwEvent.err "AGENT_ERROR" "Failed to process chat message"] :=
  (handleChatMessage_direct_emit gwCfgW 0 gwStateW "cl1" ⟨"hi", "s1"⟩
    "1.2.3.4" "UA" 100 ⟨"Hello!", [], []⟩ "boom" sessionDW (some 3600)
    (by decide) (by decide) (by decide) (by decide) (by decide) (by decide)
    (by decide)).2.2.2

end Daveloper

